import Mathlib

/-!
Verification development for the document-ingestion pipeline of the
Tu_CV_Chatero repository (`ingestion_flow.py`).

The Python source is shallowly embedded: each pipeline stage becomes a pure
Lean function over explicit data, the Qdrant vector store becomes an explicit
state value threaded through the pipeline, and the exceptions the Python code
can raise or re-raise become an `Except`-style outcome.  Purely advisory
`print` calls that carry no information used by any property (progress
counters) are modelled only where a property mentions them (the missing
directory warning and the per-file load error).
-/

namespace TuCV

/-- Metadata mapping attached to documents and chunks.  The Python code treats
it as an opaque dict that is only passed along, so an association list of
strings is a faithful shallow embedding. -/
abbrev Metadata := List (String × String)

/-- A langchain `Document` as produced by the loaders in
`load_documents_from_directory`: `page_content` text plus metadata.
Text is embedded as `List Char`. -/
structure RawDocument where
  page_content : List Char
  metadata : Metadata
deriving Repr, DecidableEq

/-- Outcome of calling `loader_class(file_path).load()` on one file: either a
list of documents, or an exception (carried as a message) thrown by the
extractor on a corrupt file. -/
inductive LoadResult where
  | ok : List RawDocument → LoadResult
  | err : String → LoadResult
deriving Repr, DecidableEq

/-- One file found by the `os.walk` traversal: its path, its extension as the
code computes it — `os.path.splitext(file_name)[1].lower()`, so `ext` holds
the already-lowercased extension — and what its extractor would produce. -/
structure FileEntry where
  path : String
  ext : String
  loadResult : LoadResult
deriving Repr, DecidableEq

/-- A source directory: `none` models a path for which `os.path.isdir` is
false; `some files` models an existing directory whose recursive walk yields
`files` in traversal order. -/
abbrev Directory := Option (List FileEntry)

/-- The extensions registered in `LOADER_MAPPING` (`ingestion_flow.py`
lines 26-33). -/
def LOADER_MAPPING_exts : List String :=
  [".pdf", ".md", ".docx", ".py", ".js", ".ts", ".html", ".css", ".txt", ".ipynb"]

/-- Result of loading one directory: the accumulated documents and the
advisory log lines the function printed. -/
structure LoadOutput where
  docs : List RawDocument
  logs : List String
deriving Repr, DecidableEq

/-- The warning printed when the directory does not exist
(`ingestion_flow.py` line 39). -/
def missingDirWarning (directory : String) : String :=
  "ADVERTENCIA: El directorio " ++ directory ++ " no existe. Saltando..."

/-- The error line printed when an extractor raises (`ingestion_flow.py`
line 51). -/
def loadErrorLog (filePath msg : String) : String :=
  "Error al cargar el archivo " ++ filePath ++ ": " ++ msg

/-- The per-file body of the `os.walk` loop (`ingestion_flow.py` lines 42-51):
files with an unregistered extension are skipped silently; for registered
ones the extractor runs inside `try`, extending the document list on success
and logging the exception on failure. -/
def processFile (acc : LoadOutput) (f : FileEntry) : LoadOutput :=
  if f.ext ∈ LOADER_MAPPING_exts then
    match f.loadResult with
    | .ok ds => { acc with docs := acc.docs ++ ds }
    | .err e => { acc with logs := acc.logs ++ [loadErrorLog f.path e] }
  else acc

/-- Embedding of `load_documents_from_directory` (`ingestion_flow.py` lines 36-53).
A missing directory yields an empty document list and a warning; otherwise
every file is processed in walk order.  The Lean function is total: as in the
Python code, no exception escapes (extractor failures are caught in the loop).
The purely informational final count line is omitted. -/
def load_documents_from_directory (name : String) : Directory → LoadOutput
  | none => { docs := [], logs := [missingDirWarning name] }
  | some files => files.foldl processFile { docs := [], logs := [] }

/-- A chunk as produced by `split_documents`: a langchain `Document` whose
`page_content` is one window of the parent text and whose metadata is
inherited from the parent. -/
structure Chunk where
  page_content : List Char
  metadata : Metadata
deriving Repr, DecidableEq

/-- Modelled from the spec: `split_documents` (`ingestion_flow.py` line 58)
delegates the actual window computation to langchain's
`RecursiveCharacterTextSplitter(chunk_size=1000, chunk_overlap=200)`, whose
code is an external library and is not part of this repository.  Following
the algorithm in the spec (section 4.2): slide a window of `W` characters over
the text, advancing by `s = W - O` each step, until the remaining text is
exhausted (a window that reaches the end of the text is the last one); the
final partial window is kept if non-empty.  `fuel` bounds the recursion and
is instantiated with the text length. -/
def slideWindowAux : Nat → Nat → Nat → List Char → List (List Char)
  | 0, _, _, _ => []
  | fuel + 1, W, s, text =>
    if text.length ≤ W then (if text.isEmpty then [] else [text])
    else text.take W :: slideWindowAux fuel W s (text.drop s)

/-- The window list of one document text, for window size `W` and step `s`. -/
def slideWindow (W s : Nat) (text : List Char) : List (List Char) :=
  slideWindowAux text.length W s text

/-- Modelled from the spec: the chunker applied to a document list, window
size `W`, overlap `O < W`.  Each document contributes its windows in order,
each window inheriting the parent metadata (spec section 4.2). -/
def splitTexts (W O : Nat) (documents : List RawDocument) : List Chunk :=
  documents.flatMap fun d =>
    (slideWindow W (W - O) d.page_content).map fun t => ⟨t, d.metadata⟩

/-- Embedding of `split_documents` (`ingestion_flow.py` lines 56-61): returns `[]` on an
empty input, otherwise splits with `chunk_size=1000`, `chunk_overlap=200`. -/
def split_documents (documents : List RawDocument) : List Chunk :=
  if documents.isEmpty then [] else splitTexts 1000 200 documents

/-- The lengths of the windows depend only on the text length: a pure `Nat`
recursion mirroring `slideWindowAux`. -/
def windowLengths : Nat → Nat → Nat → Nat → List Nat
  | 0, _, _, _ => []
  | fuel + 1, W, s, L =>
    if L ≤ W then (if L = 0 then [] else [L])
    else W :: windowLengths fuel W s (L - s)

theorem slideWindowAux_map_length (fuel W s : Nat) :
    ∀ text : List Char,
      (slideWindowAux fuel W s text).map List.length = windowLengths fuel W s text.length := by
  induction fuel with
  | zero => intro text; rfl
  | succ n ih =>
    intro text
    simp only [slideWindowAux, windowLengths]
    by_cases h : text.length ≤ W
    · by_cases h0 : text = []
      · subst h0; simp
      · have h0' : text.length ≠ 0 := by simpa [List.length_eq_zero] using h0
        simp [h, h0, h0', List.isEmpty_iff]
    · simp only [h, if_false, if_neg h]
      rw [List.map_cons, ih (text.drop s)]
      have h' : W ≤ text.length := Nat.le_of_lt (Nat.lt_of_not_le h)
      simp [List.length_take, List.length_drop, Nat.min_def, h']

/-- Fuel irrelevance: any fuel at least the text length computes the same
window list. -/
theorem slideWindowAux_fuel (f₁ f₂ W s : Nat) (hs : 0 < s) :
    ∀ text : List Char, text.length ≤ f₁ → text.length ≤ f₂ →
      slideWindowAux f₁ W s text = slideWindowAux f₂ W s text := by
  induction f₁ generalizing f₂ with
  | zero =>
    intro text h1 _
    have : text = [] := List.length_eq_zero.mp (Nat.le_zero.mp h1)
    subst this
    cases f₂ with
    | zero => rfl
    | succ m => simp [slideWindowAux]
  | succ n ih =>
    intro text h1 h2
    cases f₂ with
    | zero =>
      have : text = [] := List.length_eq_zero.mp (Nat.le_zero.mp h2)
      subst this
      simp [slideWindowAux]
    | succ m =>
      simp only [slideWindowAux]
      by_cases h : text.length ≤ W
      · rw [if_pos h, if_pos h]
      · rw [if_neg h, if_neg h]
        have hlen : (text.drop s).length = text.length - s := List.length_drop s text
        rw [ih m (text.drop s) (by omega) (by omega)]

theorem slideWindow_eq_nil : slideWindow 0 0 [] = [] := rfl

/-- Unfolding equation: empty text yields no window. -/
theorem slideWindow_nil (W s : Nat) : slideWindow W s [] = [] := by
  cases W <;> rfl

/-- Unfolding equation: a text that fits in one window is the only window. -/
theorem slideWindow_short (W s : Nat) (text : List Char)
    (hne : text ≠ []) (hle : text.length ≤ W) : slideWindow W s text = [text] := by
  have h1 : text.length ≠ 0 := by simpa [List.length_eq_zero] using hne
  obtain ⟨n, hn⟩ := Nat.exists_eq_succ_of_ne_zero h1
  unfold slideWindow
  rw [hn]
  simp only [slideWindowAux]
  rw [if_pos hle]
  simp [List.isEmpty_iff, hne]

/-- Unfolding equation: a long text contributes its first window and recurses
on the text shifted by the step. -/
theorem slideWindow_long (W s : Nat) (text : List Char)
    (hs : 0 < s) (hgt : W < text.length) :
    slideWindow W s text = text.take W :: slideWindow W s (text.drop s) := by
  have h1 : text.length ≠ 0 := by omega
  obtain ⟨n, hn⟩ := Nat.exists_eq_succ_of_ne_zero h1
  unfold slideWindow
  rw [hn]
  simp only [slideWindowAux]
  rw [if_neg (Nat.not_le.mpr hgt)]
  congr 1
  have hdl : (text.drop s).length = text.length - s := List.length_drop s text
  exact slideWindowAux_fuel n (text.drop s).length W s hs (text.drop s) (by omega) (by omega)

/-- The first window of a non-empty text is its first `W` characters. -/
theorem slideWindowAux_getD_zero (fuel W s : Nat) (t : List Char)
    (ht : t ≠ []) (hf : 0 < fuel) :
    (slideWindowAux fuel W s t).getD 0 [] = t.take W := by
  obtain ⟨n, rfl⟩ := Nat.exists_eq_succ_of_ne_zero (Nat.pos_iff_ne_zero.mp hf)
  simp only [slideWindowAux]
  by_cases h : t.length ≤ W
  · rw [if_pos h]
    simp [List.isEmpty_iff, ht, List.take_of_length_le h]
  · rw [if_neg h]
    rfl

/-- Every window except possibly the last has length exactly `W`. -/
theorem slideWindowAux_allButLast (W s : Nat) :
    ∀ (fuel : Nat) (t : List Char) (i : Nat),
      i + 1 < (slideWindowAux fuel W s t).length →
      ((slideWindowAux fuel W s t).getD i []).length = W := by
  intro fuel
  induction fuel with
  | zero => intro t i h; simp [slideWindowAux] at h
  | succ n ih =>
    intro t i h
    simp only [slideWindowAux] at h ⊢
    by_cases h' : t.length ≤ W
    · rw [if_pos h'] at h
      by_cases he : t.isEmpty
      · simp [he] at h
      · simp only [he, if_false, Bool.false_eq_true, List.length_cons, List.length_nil] at h
        omega
    · rw [if_neg h'] at h ⊢
      cases i with
      | zero =>
        simp only [List.getD_cons_zero, List.length_take]
        omega
      | succ j =>
        simp only [List.getD_cons_succ]
        simp only [List.length_cons] at h
        exact ih (t.drop s) j (by omega)

/-- Consecutive windows overlap in exactly `W - s` characters: the part of a
window past the step equals the head of the next window. -/
theorem slideWindowAux_overlap (W s : Nat) (hs : 0 < s) (hsW : s ≤ W) :
    ∀ (fuel : Nat) (t : List Char), t.length ≤ fuel →
      ∀ i : Nat, i + 1 < (slideWindowAux fuel W s t).length →
        ((slideWindowAux fuel W s t).getD i []).drop s =
          ((slideWindowAux fuel W s t).getD (i + 1) []).take (W - s)
        ∧ (((slideWindowAux fuel W s t).getD i []).drop s).length = W - s := by
  intro fuel
  induction fuel with
  | zero => intro t _ i h; simp [slideWindowAux] at h
  | succ n ih =>
    intro t hle i h
    simp only [slideWindowAux] at h ⊢
    by_cases h' : t.length ≤ W
    · rw [if_pos h'] at h
      by_cases he : t.isEmpty
      · simp [he] at h
      · simp only [he, if_false, Bool.false_eq_true, List.length_cons, List.length_nil] at h
        omega
    · rw [if_neg h'] at h ⊢
      have hWt : W < t.length := Nat.lt_of_not_le h'
      cases i with
      | zero =>
        have hdrop_ne : t.drop s ≠ [] := by
          intro hcon
          have := congrArg List.length hcon
          simp [List.length_drop] at this
          omega
        have hn : 0 < n := by
          have := List.length_pos.mpr hdrop_ne
          simp [List.length_drop] at this
          omega
        simp only [List.getD_cons_zero, List.getD_cons_succ]
        rw [slideWindowAux_getD_zero n W s (t.drop s) hdrop_ne hn]
        constructor
        · rw [List.drop_take, List.take_take]
          congr 1
          omega
        · simp only [List.length_drop, List.length_take]
          omega
      | succ j =>
        simp only [List.getD_cons_succ]
        simp only [List.length_cons] at h
        have hdl : (t.drop s).length = t.length - s := List.length_drop s t
        exact ih (t.drop s) (by omega) j (by omega)

/-- Gluing lemma: the tail of the first window past the overlap prefix,
followed by the text past the window, is the text past the overlap prefix. -/
theorem take_drop_glue (W O : Nat) (t : List Char) (hOW : O ≤ W) (hWt : W ≤ t.length) :
    (t.take W).drop O ++ t.drop W = t.drop O := by
  conv_rhs => rw [← List.take_append_drop W t]
  rw [List.drop_append_of_le_length]
  simp only [List.length_take]
  omega

/-- Dropping the first `O` characters of every window and concatenating
recovers the text past its first `O` characters. -/
theorem slideWindowAux_joinDrop (W O : Nat) (hO : O < W) :
    ∀ (fuel : Nat) (t : List Char), t.length ≤ fuel →
      ((slideWindowAux fuel W (W - O) t).map (List.drop O)).flatten = t.drop O := by
  intro fuel
  induction fuel with
  | zero =>
    intro t hle
    have : t = [] := List.length_eq_zero.mp (Nat.le_zero.mp hle)
    subst this
    simp [slideWindowAux]
  | succ n ih =>
    intro t hle
    simp only [slideWindowAux]
    by_cases h : t.length ≤ W
    · by_cases he : t = []
      · subst he; simp
      · rw [if_pos h]
        simp [List.isEmpty_iff, he]
    · rw [if_neg h]
      have hWt : W < t.length := Nat.lt_of_not_le h
      simp only [List.map_cons, List.flatten_cons]
      have hdl : (t.drop (W - O)).length = t.length - (W - O) := List.length_drop _ t
      rw [ih (t.drop (W - O)) (by omega)]
      rw [List.drop_drop]
      have hWO : W - O + O = W := by omega
      rw [hWO]
      exact take_drop_glue W O t (by omega) (by omega)

/-- Concatenation-with-dedup of a window list: the first window whole, each
later window with its `O`-character overlap prefix removed. -/
def dedupConcat (O : Nat) : List (List Char) → List Char
  | [] => []
  | c :: rest => c ++ (rest.map (List.drop O)).flatten

/-- An embedding vector.  The Python vectors hold floats, but the ingestion
code never computes with the entries — it only measures lengths and passes
vectors through — so entries are embedded as opaque integers. -/
abbrev Vec := List Int

/-- Python `str.strip()`: remove leading and trailing whitespace. -/
def pyStrip (s : List Char) : List Char :=
  ((s.dropWhile Char.isWhitespace).reverse.dropWhile Char.isWhitespace).reverse

/-- The filter on line 67 of `ingestion_flow.py`:
`[c for c in chunks if c.page_content and len(c.page_content.strip()) > 0]`.
A non-empty stripped text implies a non-empty text, so the conjunction reduces
to the strip test. -/
def validChunksOf (chunks : List Chunk) : List Chunk :=
  chunks.filter fun c => !(pyStrip c.page_content).isEmpty

/-- The `models.Distance` enum of the qdrant client (only COSINE is used). -/
inductive Distance where
  | COSINE
  | DOT
  | EUCLID
deriving Repr, DecidableEq

/-- The descriptor of the (single) target collection. -/
structure CollectionInfo where
  vectorSize : Nat
  distance : Distance
deriving Repr, DecidableEq

/-- The payload stored with each point (`ingestion_flow.py` line 107). -/
structure Payload where
  page_content : List Char
  metadata : Metadata
deriving Repr, DecidableEq

/-- The stored points of the collection, as a map from point id to its
vector and payload. -/
abbrev PointMap := Nat → Option (Vec × Payload)

/-- The observable state of the qdrant store for the one collection the
pipeline touches: whether the collection exists (and with which parameters),
and its points. -/
structure StoreState where
  collection : Option CollectionInfo
  points : PointMap

/-- Embedding of `models.Batch(ids=..., vectors=..., payloads=...)`
(`ingestion_flow.py` lines 104-108). -/
structure Batch where
  ids : List Nat
  vectors : List Vec
  payloads : List Payload

/-- The (id, vector, payload) triples of a batch, aligned positionally. -/
def pointsOf (b : Batch) : List (Nat × Vec × Payload) :=
  b.ids.zip (b.vectors.zip b.payloads)

/-- Writing one point: insert-or-replace by id. -/
def applyPoint (m : PointMap) (e : Nat × Vec × Payload) : PointMap :=
  fun j => if j = e.1 then some e.2 else m j

/-- Embedding of `client.upsert` of one batch: each point is written in order,
replacing any existing point with the same id. -/
def upsertBatch (b : Batch) (m : PointMap) : PointMap :=
  (pointsOf b).foldl applyPoint m

/-- The batch built on lines 104-108: ids are `range(len(valid_chunks))`,
vectors are the provider's response, payloads are
`{page_content: text, metadata: metadata}` zipped positionally. -/
def makeBatch (valid_chunks : List Chunk) (vectors : List Vec) : Batch :=
  { ids := List.range valid_chunks.length
  , vectors := vectors
  , payloads := ((valid_chunks.map (·.page_content)).zip (valid_chunks.map (·.metadata))).map
      fun p => ⟨p.1, p.2⟩ }

/-- Lines 91-99: `get_collection` inside `try`; if it succeeds the existing
collection is used unchanged (only a print happens); on the exception the
collection is created with the given vector size and COSINE distance. -/
def ensureCollection (vector_size : Nat) (st : StoreState) : StoreState :=
  match st.collection with
  | some _ => st
  | none => { st with collection := some ⟨vector_size, Distance.COSINE⟩ }

/-- The errors `generate_and_store_embeddings` can raise: the re-raised
exception of the embedding call (line 86), and the `IndexError` of
`vectors[0]` on line 89 when the response is empty. -/
inductive RunError where
  | providerError : String → RunError
  | indexError : RunError
deriving Repr, DecidableEq

/-- Result of running `generate_and_store_embeddings`: its outcome (normal
return with the new store state, or a raised error), together with how many
embedding-provider calls and how many upsert calls were issued. -/
structure GenResult where
  outcome : Except RunError StoreState
  embedCalls : Nat
  upsertCalls : Nat

/-- Embedding of `generate_and_store_embeddings` (`ingestion_flow.py` lines 63-112).
The embedding provider is a parameter: the call `embeddings.embed_documents`
either returns the vectors or raises (carried as `Except`).  The store state
is threaded explicitly. -/
def generate_and_store_embeddings
    (provider : List (List Char) → Except String (List Vec))
    (chunks : List Chunk) (st : StoreState) : GenResult :=
  if chunks.isEmpty then ⟨.ok st, 0, 0⟩
  else if (validChunksOf chunks).isEmpty then ⟨.ok st, 0, 0⟩
  else
    match provider ((validChunksOf chunks).map (·.page_content)) with
    | .error e => ⟨.error (.providerError e), 1, 0⟩
    | .ok vectors =>
      match vectors.head? with
      | none => ⟨.error .indexError, 1, 0⟩
      | some v0 =>
        let st1 := ensureCollection v0.length st
        ⟨.ok { st1 with
               points := upsertBatch (makeBatch (validChunksOf chunks) vectors) st1.points },
         1, 1⟩

/-- Embedding of `data_ingestion_flow` (`ingestion_flow.py` lines 114-128): load the three
directories in fixed order, concatenate, and only if any document was found
run the chunking and embedding stages. -/
def data_ingestion_flow
    (provider : List (List Char) → Except String (List Vec))
    (cv_dir projects_dir repos_dir : String × Directory)
    (st : StoreState) : GenResult :=
  let all_documents :=
    (load_documents_from_directory cv_dir.1 cv_dir.2).docs ++
    (load_documents_from_directory projects_dir.1 projects_dir.2).docs ++
    (load_documents_from_directory repos_dir.1 repos_dir.2).docs
  if all_documents.isEmpty then ⟨.ok st, 0, 0⟩
  else generate_and_store_embeddings provider (split_documents all_documents) st

/-- Concatenation-with-dedup of the window list reconstructs the text. -/
theorem dedupConcat_slideWindow (W O : Nat) (hO : O < W) (t : List Char) :
    dedupConcat O (slideWindow W (W - O) t) = t := by
  by_cases he : t = []
  · subst he; rw [slideWindow_nil]; rfl
  · by_cases h : t.length ≤ W
    · rw [slideWindow_short W (W - O) t he h]
      simp [dedupConcat]
    · rw [slideWindow_long W (W - O) t (by omega) (Nat.lt_of_not_le h)]
      simp only [dedupConcat]
      have : ((slideWindow W (W - O) (t.drop (W - O))).map (List.drop O)).flatten
          = (t.drop (W - O)).drop O :=
        slideWindowAux_joinDrop W O hO (t.drop (W - O)).length (t.drop (W - O)) le_rfl
      rw [this, List.drop_drop]
      have hWO : W - O + O = W := by omega
      rw [hWO]
      exact List.take_append_drop W t

/-- The last point of a list whose id matches, if any: later writes win. -/
def lastMatch : List (Nat × Vec × Payload) → Nat → Option (Vec × Payload)
  | [], _ => none
  | e :: l, j =>
    match lastMatch l j with
    | some r => some r
    | none => if e.1 = j then some e.2 else none

theorem foldl_applyPoint_lookup :
    ∀ (l : List (Nat × Vec × Payload)) (m : PointMap) (j : Nat),
      (l.foldl applyPoint m) j =
        match lastMatch l j with
        | some r => some r
        | none => m j := by
  intro l
  induction l with
  | nil => intro m j; rfl
  | cons e l ih =>
    intro m j
    simp only [List.foldl_cons, lastMatch]
    rw [ih (applyPoint m e) j]
    cases h : lastMatch l j with
    | some r => rfl
    | none =>
      simp only [applyPoint]
      by_cases hj : j = e.1
      · simp [hj]
      · have hj' : ¬ e.1 = j := fun h' => hj h'.symm
        simp [hj, hj']

/-- Looking up a point after a batch upsert: the last matching write of the
batch if any, otherwise the previous contents. -/
theorem upsertBatch_lookup (b : Batch) (m : PointMap) (j : Nat) :
    upsertBatch b m j =
      match lastMatch (pointsOf b) j with
      | some r => some r
      | none => m j :=
  foldl_applyPoint_lookup (pointsOf b) m j

/-- Upserting the same batch twice is the same as upserting it once:
replace-in-place, not append. -/
theorem upsertBatch_idem (b : Batch) (m : PointMap) :
    upsertBatch b (upsertBatch b m) = upsertBatch b m := by
  funext j
  rw [upsertBatch_lookup]
  cases h : lastMatch (pointsOf b) j with
  | some r => rw [upsertBatch_lookup, h]
  | none => rfl

theorem ensureCollection_points (sz : Nat) (st : StoreState) :
    (ensureCollection sz st).points = st.points := by
  unfold ensureCollection
  cases h : st.collection <;> rfl

theorem ensureCollection_isSome (sz : Nat) (st : StoreState) :
    (ensureCollection sz st).collection.isSome := by
  unfold ensureCollection
  cases h : st.collection <;> simp [h]

theorem ensureCollection_of_isSome (sz : Nat) (st : StoreState)
    (h : st.collection.isSome) : ensureCollection sz st = st := by
  unfold ensureCollection
  cases hc : st.collection with
  | none => rw [hc] at h; simp at h
  | some info => rfl

/-- A non-empty filtered list comes from a non-empty list. -/
theorem chunks_ne_of_valid_ne (chunks : List Chunk)
    (h : (validChunksOf chunks).isEmpty = false) : chunks.isEmpty = false := by
  cases chunks with
  | nil => simp [validChunksOf] at h
  | cons c l => rfl

/-- Behaviour of `generate_and_store_embeddings` when no valid chunk exists:
immediate return, no provider call, no upsert, store untouched. -/
theorem gen_of_validEmpty (provider : List (List Char) → Except String (List Vec))
    (chunks : List Chunk) (st : StoreState)
    (h : (validChunksOf chunks).isEmpty = true) :
    generate_and_store_embeddings provider chunks st = ⟨.ok st, 0, 0⟩ := by
  unfold generate_and_store_embeddings
  by_cases hb : chunks.isEmpty
  · rw [if_pos hb]
  · rw [if_neg hb, if_pos h]

/-- Behaviour when the provider raises: one provider call, the error is
re-raised, no upsert. -/
theorem gen_of_providerError (provider : List (List Char) → Except String (List Vec))
    (chunks : List Chunk) (st : StoreState) (e : String)
    (hv : (validChunksOf chunks).isEmpty = false)
    (hp : provider ((validChunksOf chunks).map (·.page_content)) = .error e) :
    generate_and_store_embeddings provider chunks st =
      ⟨.error (.providerError e), 1, 0⟩ := by
  unfold generate_and_store_embeddings
  rw [if_neg (by simp [chunks_ne_of_valid_ne chunks hv]), if_neg (by simp [hv]), hp]

/-- Behaviour when the provider returns an empty vector list for a non-empty
input: the `vectors[0]` access on line 89 fails. -/
theorem gen_of_emptyVectors (provider : List (List Char) → Except String (List Vec))
    (chunks : List Chunk) (st : StoreState)
    (hv : (validChunksOf chunks).isEmpty = false)
    (hp : provider ((validChunksOf chunks).map (·.page_content)) = .ok []) :
    generate_and_store_embeddings provider chunks st = ⟨.error .indexError, 1, 0⟩ := by
  unfold generate_and_store_embeddings
  rw [if_neg (by simp [chunks_ne_of_valid_ne chunks hv]), if_neg (by simp [hv]), hp]
  rfl

/-- Behaviour on the success path: one provider call, the collection is
ensured with the dimensionality of the first returned vector, and the batch
built from the valid chunks and the vectors is upserted. -/
theorem gen_success (provider : List (List Char) → Except String (List Vec))
    (chunks : List Chunk) (st : StoreState) (vectors : List Vec) (v0 : Vec)
    (hv : (validChunksOf chunks).isEmpty = false)
    (hp : provider ((validChunksOf chunks).map (·.page_content)) = .ok vectors)
    (hh : vectors.head? = some v0) :
    generate_and_store_embeddings provider chunks st =
      ⟨.ok { ensureCollection v0.length st with
             points := upsertBatch (makeBatch (validChunksOf chunks) vectors)
                         (ensureCollection v0.length st).points },
       1, 1⟩ := by
  obtain ⟨vs, rfl⟩ : ∃ vs, vectors = v0 :: vs := by
    cases vectors with
    | nil => simp at hh
    | cons a as =>
      simp only [List.head?_cons, Option.some.injEq] at hh
      exact ⟨as, by rw [hh]⟩
  unfold generate_and_store_embeddings
  rw [if_neg (by simp [chunks_ne_of_valid_ne chunks hv]), if_neg (by simp [hv]), hp]
  rfl

/-- Whether an outcome is a normal return (no raised error). -/
def isNormal : Except RunError StoreState → Bool
  | .ok _ => true
  | .error _ => false

/-- The store before any ingestion: no collection, no points. -/
def emptyStore : StoreState := { collection := none, points := fun _ => none }

/-- A store whose collection pre-exists with dimensionality 7 and DOT
distance — deliberately different from anything a run would create. -/
def mismatchedStore : StoreState :=
  { collection := some ⟨7, Distance.DOT⟩, points := fun _ => none }

/-- A well-behaved provider: one 2-dimensional vector per input text. -/
def okProvider : List (List Char) → Except String (List Vec) :=
  fun ts => .ok (ts.map fun _ => [0, 1])

/-- A buggy provider: a single vector regardless of the input count. -/
def mismatchProvider : List (List Char) → Except String (List Vec) :=
  fun _ => .ok [[0, 1, 2]]

/-- A provider whose remote call always fails. -/
def failProvider : List (List Char) → Except String (List Vec) :=
  fun _ => .error "rate limit"

/-- A buggy provider returning an empty vector list. -/
def emptyReplyProvider : List (List Char) → Except String (List Vec) :=
  fun _ => .ok []

/-- One chunk with non-blank text. -/
def oneChunk : List Chunk := [⟨['a'], []⟩]

/-- Two chunks with non-blank texts. -/
def twoChunks : List Chunk := [⟨['a'], []⟩, ⟨['b'], []⟩]

/-- C5: loading a root directory path that does not exist returns an empty
document sequence and emits the non-fatal warning.  The loader of the model,
like the Python function (which returns `[]` after printing), is total, so no
exception aborts the run. -/
theorem C5_missing_directory_empty_and_warning (name : String) :
    (load_documents_from_directory name none).docs = []
    ∧ (load_documents_from_directory name none).logs = [missingDirWarning name] :=
  ⟨rfl, rfl⟩

/-- C6: for a directory holding a corrupt file (registered extension, whose
extractor raises) followed by a valid file, loading returns exactly the valid
file's documents and logs an error for the corrupt file — the bad file does
not abort the directory's processing. -/
theorem C6_corrupt_file_logged_not_fatal
    (name p₁ p₂ ext₁ ext₂ e : String) (ds : List RawDocument)
    (h₁ : ext₁ ∈ LOADER_MAPPING_exts)
    (h₂ : ext₂ ∈ LOADER_MAPPING_exts) :
    (load_documents_from_directory name
        (some [⟨p₁, ext₁, .err e⟩, ⟨p₂, ext₂, .ok ds⟩])).docs = ds
    ∧ (load_documents_from_directory name
        (some [⟨p₁, ext₁, .err e⟩, ⟨p₂, ext₂, .ok ds⟩])).logs = [loadErrorLog p₁ e] := by
  unfold load_documents_from_directory
  simp [processFile, h₁, h₂]

theorem C6_witness :
    (".pdf" ∈ LOADER_MAPPING_exts)
    ∧ (".txt" ∈ LOADER_MAPPING_exts)
    ∧ (load_documents_from_directory "CV"
        (some [⟨"CV/bad.pdf", ".pdf", .err "corrupt"⟩,
               ⟨"CV/ok.txt", ".txt", .ok [⟨['h', 'i'], []⟩]⟩])).docs = [⟨['h', 'i'], []⟩]
    ∧ (load_documents_from_directory "CV"
        (some [⟨"CV/bad.pdf", ".pdf", .err "corrupt"⟩,
               ⟨"CV/ok.txt", ".txt", .ok [⟨['h', 'i'], []⟩]⟩])).logs
        = [loadErrorLog "CV/bad.pdf" "corrupt"] := by
  refine ⟨by decide, by decide, ?_, ?_⟩
  · exact (C6_corrupt_file_logged_not_fatal "CV" "CV/bad.pdf" "CV/ok.txt" ".pdf" ".txt"
      "corrupt" [⟨['h', 'i'], []⟩] (by decide) (by decide)).1
  · exact (C6_corrupt_file_logged_not_fatal "CV" "CV/bad.pdf" "CV/ok.txt" ".pdf" ".txt"
      "corrupt" [⟨['h', 'i'], []⟩] (by decide) (by decide)).2

/-- C7: when all three configured source directories yield no documents
(empty or absent), the run completes as an empty success: the store state is
returned unchanged — zero points written, no collection created — and
neither the embedding provider nor the vector store is contacted. -/
theorem C7_empty_sources_empty_success
    (provider : List (List Char) → Except String (List Vec))
    (cv projects repos : String × Directory) (st : StoreState)
    (h₁ : (load_documents_from_directory cv.1 cv.2).docs = [])
    (h₂ : (load_documents_from_directory projects.1 projects.2).docs = [])
    (h₃ : (load_documents_from_directory repos.1 repos.2).docs = []) :
    data_ingestion_flow provider cv projects repos st = ⟨.ok st, 0, 0⟩ := by
  simp [data_ingestion_flow, h₁, h₂, h₃]

theorem C7_witness :
    (load_documents_from_directory "CV" none).docs = []
    ∧ (load_documents_from_directory "proyectos" (some [])).docs = []
    ∧ (load_documents_from_directory "repos" none).docs = []
    ∧ data_ingestion_flow okProvider ("CV", none) ("proyectos", some []) ("repos", none)
        emptyStore = ⟨.ok emptyStore, 0, 0⟩ := by
  refine ⟨rfl, rfl, rfl, ?_⟩
  exact C7_empty_sources_empty_success okProvider ("CV", none) ("proyectos", some [])
    ("repos", none) emptyStore rfl rfl rfl

/-- C8: when the remote embedding call fails, the error is re-raised and
aborts the run; exactly one embedding call was issued (no internal retry)
and no upsert happened. -/
theorem C8_provider_failure_reraised_no_retry
    (provider : List (List Char) → Except String (List Vec))
    (chunks : List Chunk) (st : StoreState) (e : String)
    (hv : (validChunksOf chunks).isEmpty = false)
    (hp : provider ((validChunksOf chunks).map (·.page_content)) = .error e) :
    (generate_and_store_embeddings provider chunks st).outcome = .error (.providerError e)
    ∧ (generate_and_store_embeddings provider chunks st).embedCalls = 1
    ∧ (generate_and_store_embeddings provider chunks st).upsertCalls = 0 := by
  rw [gen_of_providerError provider chunks st e hv hp]
  exact ⟨rfl, rfl, rfl⟩

theorem C8_witness :
    (validChunksOf oneChunk).isEmpty = false
    ∧ (generate_and_store_embeddings failProvider oneChunk emptyStore).outcome
        = .error (.providerError "rate limit")
    ∧ (generate_and_store_embeddings failProvider oneChunk emptyStore).embedCalls = 1
    ∧ (generate_and_store_embeddings failProvider oneChunk emptyStore).upsertCalls = 0 := by
  refine ⟨by decide, ?_⟩
  have h := C8_provider_failure_reraised_no_retry failProvider oneChunk emptyStore
    "rate limit" (by decide) rfl
  exact ⟨h.1, h.2.1, h.2.2⟩

/-- C1 counterexample: two valid chunk texts are sent, the provider returns a
single vector — returned count 1 differs from input count 2 — and yet
`generate_and_store_embeddings` completes normally: the code contains no
validation of the response and no ContractViolation is ever raised. -/
theorem C1_counterexample_no_contract_check :
    ((validChunksOf twoChunks).map (·.page_content)).length = 2
    ∧ mismatchProvider ((validChunksOf twoChunks).map (·.page_content)) = .ok [[0, 1, 2]]
    ∧ isNormal (generate_and_store_embeddings mismatchProvider twoChunks emptyStore).outcome
        = true :=
  ⟨by decide, rfl, rfl⟩

/-- C1 amended: the Embedding Client performs no validation on return:
whenever the provider returns any non-empty vector list for a non-empty
input — whether or not the vector count equals the input count, and whether
or not the vectors share one length — the call completes normally and no
error distinct from the re-raised provider error exists. -/
theorem C1_amended_no_response_validation
    (provider : List (List Char) → Except String (List Vec))
    (chunks : List Chunk) (st : StoreState) (vectors : List Vec)
    (hv : (validChunksOf chunks).isEmpty = false)
    (hp : provider ((validChunksOf chunks).map (·.page_content)) = .ok vectors)
    (hne : vectors ≠ []) :
    isNormal (generate_and_store_embeddings provider chunks st).outcome = true := by
  obtain ⟨v0, vs, rfl⟩ := List.exists_cons_of_ne_nil hne
  rw [gen_success provider chunks st (v0 :: vs) v0 hv hp rfl]
  rfl

theorem C1_amended_witness :
    (validChunksOf twoChunks).isEmpty = false
    ∧ mismatchProvider ((validChunksOf twoChunks).map (·.page_content)) = .ok [[0, 1, 2]]
    ∧ isNormal (generate_and_store_embeddings mismatchProvider twoChunks emptyStore).outcome
        = true := by
  refine ⟨by decide, rfl, ?_⟩
  exact C1_amended_no_response_validation mismatchProvider twoChunks emptyStore
    [[0, 1, 2]] (by decide) rfl (by simp)

/-- C4: the collection is looked up before any upsert; a found collection is
accepted as-is — its descriptor, dimensionality included, is left unchanged
and unvalidated against the run's vectors — while a missing collection is
created with vector size equal to the length of the first returned vector
and the COSINE distance metric. -/
theorem C4_collection_lookup_semantics
    (provider : List (List Char) → Except String (List Vec))
    (chunks : List Chunk) (st : StoreState) (vectors : List Vec) (v0 : Vec)
    (info : CollectionInfo)
    (hv : (validChunksOf chunks).isEmpty = false)
    (hp : provider ((validChunksOf chunks).map (·.page_content)) = .ok vectors)
    (hh : vectors.head? = some v0) :
    (st.collection = some info →
      (generate_and_store_embeddings provider chunks st).outcome =
        .ok { collection := some info,
              points := upsertBatch (makeBatch (validChunksOf chunks) vectors) st.points })
    ∧ (st.collection = none →
      (generate_and_store_embeddings provider chunks st).outcome =
        .ok { collection := some ⟨v0.length, Distance.COSINE⟩,
              points := upsertBatch (makeBatch (validChunksOf chunks) vectors) st.points }) := by
  rw [gen_success provider chunks st vectors v0 hv hp hh]
  constructor
  · intro hc
    cases st with
    | mk coll pts =>
      subst hc
      rfl
  · intro hc
    cases st with
    | mk coll pts =>
      subst hc
      rfl

theorem C4_witness :
    mismatchedStore.collection = some ⟨7, Distance.DOT⟩
    ∧ (generate_and_store_embeddings okProvider oneChunk mismatchedStore).outcome =
        .ok { collection := some ⟨7, Distance.DOT⟩,
              points := upsertBatch (makeBatch (validChunksOf oneChunk) [[0, 1]])
                          mismatchedStore.points }
    ∧ emptyStore.collection = none
    ∧ (generate_and_store_embeddings okProvider oneChunk emptyStore).outcome =
        .ok { collection := some ⟨2, Distance.COSINE⟩,
              points := upsertBatch (makeBatch (validChunksOf oneChunk) [[0, 1]])
                          emptyStore.points } := by
  refine ⟨rfl, ?_, rfl, ?_⟩
  · exact (C4_collection_lookup_semantics okProvider oneChunk mismatchedStore
      [[0, 1]] [0, 1] ⟨7, Distance.DOT⟩ (by decide) rfl rfl).1 rfl
  · exact (C4_collection_lookup_semantics okProvider oneChunk emptyStore
      [[0, 1]] [0, 1] ⟨7, Distance.DOT⟩ (by decide) rfl rfl).2 rfl

/-- C10: with at least one valid chunk and under the precondition that the
provider returns one vector per input text, the `vectors[0]` access deriving
the collection size is in-bounds and the run completes normally; the code
places no other guard on this access — the same call with an empty provider
response fails with the index error. -/
theorem C10_first_vector_access_guard
    (provider : List (List Char) → Except String (List Vec))
    (chunks : List Chunk) (st : StoreState) (vectors : List Vec)
    (hv : (validChunksOf chunks).isEmpty = false) :
    (provider ((validChunksOf chunks).map (·.page_content)) = .ok vectors →
      vectors.length = ((validChunksOf chunks).map (·.page_content)).length →
      isNormal (generate_and_store_embeddings provider chunks st).outcome = true)
    ∧ (provider ((validChunksOf chunks).map (·.page_content)) = .ok [] →
      (generate_and_store_embeddings provider chunks st).outcome = .error .indexError) := by
  constructor
  · intro hp hlen
    have hvc : validChunksOf chunks ≠ [] := by
      intro hcon
      rw [hcon] at hv
      simp at hv
    have hne : vectors ≠ [] := by
      intro hcon
      subst hcon
      rw [List.length_map] at hlen
      exact hvc (List.length_eq_zero.mp hlen.symm)
    obtain ⟨v0, vs, rfl⟩ := List.exists_cons_of_ne_nil hne
    rw [gen_success provider chunks st (v0 :: vs) v0 hv hp rfl]
    rfl
  · intro hp
    rw [gen_of_emptyVectors provider chunks st hv hp]

theorem C10_witness :
    (validChunksOf oneChunk).isEmpty = false
    ∧ okProvider ((validChunksOf oneChunk).map (·.page_content)) = .ok [[0, 1]]
    ∧ ([[0, 1]] : List Vec).length = ((validChunksOf oneChunk).map (·.page_content)).length
    ∧ isNormal (generate_and_store_embeddings okProvider oneChunk emptyStore).outcome = true
    ∧ emptyReplyProvider ((validChunksOf oneChunk).map (·.page_content)) = .ok []
    ∧ (generate_and_store_embeddings emptyReplyProvider oneChunk emptyStore).outcome
        = .error .indexError := by
  refine ⟨by decide, rfl, by decide, ?_, rfl, ?_⟩
  · exact (C10_first_vector_access_guard okProvider oneChunk emptyStore [[0, 1]]
      (by decide)).1 rfl (by decide)
  · exact (C10_first_vector_access_guard emptyReplyProvider oneChunk emptyStore [[0, 1]]
      (by decide)).2 rfl

/-- C9: every point of the batch passed to the upsert carries the payload
`{page_content, metadata}` of its positionally corresponding valid chunk,
and that page_content is non-empty after stripping — chunks that are blank
after stripping were dropped by the filter before embedding and storing. -/
theorem C9_payload_shape_and_nonblank
    (chunks : List Chunk) (vectors : List Vec) (i : Nat)
    (h : i < (pointsOf (makeBatch (validChunksOf chunks) vectors)).length) :
    ((pointsOf (makeBatch (validChunksOf chunks) vectors)).getD i (0, [], ⟨[], []⟩)).2.2
      = ⟨((validChunksOf chunks).getD i ⟨[], []⟩).page_content,
         ((validChunksOf chunks).getD i ⟨[], []⟩).metadata⟩
    ∧ pyStrip (((pointsOf (makeBatch (validChunksOf chunks) vectors)).getD i
        (0, [], ⟨[], []⟩)).2.2.page_content) ≠ [] := by
  have hlen : i < (validChunksOf chunks).length := by
    simp only [pointsOf, makeBatch, List.length_zip, List.length_map,
      List.length_range, lt_min_iff] at h
    exact h.1
  have hpt := List.getD_eq_getElem (pointsOf (makeBatch (validChunksOf chunks) vectors))
    (0, [], (⟨[], []⟩ : Payload)) h
  have hvc := List.getD_eq_getElem (validChunksOf chunks) (⟨[], []⟩ : Chunk) hlen
  rw [hpt, hvc]
  have hval : ((pointsOf (makeBatch (validChunksOf chunks) vectors))[i]).2.2
      = ⟨((validChunksOf chunks)[i]).page_content,
         ((validChunksOf chunks)[i]).metadata⟩ := by
    simp only [pointsOf, makeBatch]
    rw [List.getElem_zip, List.getElem_zip]
    simp [List.getElem_map, List.getElem_zip]
  refine ⟨hval, ?_⟩
  rw [hval]
  have hmem : (validChunksOf chunks)[i] ∈ validChunksOf chunks :=
    List.getElem_mem hlen
  unfold validChunksOf at hmem
  have hpred := (List.mem_filter.mp hmem).2
  simpa [List.isEmpty_iff] using hpred

theorem C9_witness :
    0 < (pointsOf (makeBatch (validChunksOf twoChunks) [[0, 1], [2, 3]])).length
    ∧ (((pointsOf (makeBatch (validChunksOf twoChunks) [[0, 1], [2, 3]])).getD 0
          (0, [], ⟨[], []⟩)).2.2
        = ⟨((validChunksOf twoChunks).getD 0 ⟨[], []⟩).page_content,
           ((validChunksOf twoChunks).getD 0 ⟨[], []⟩).metadata⟩
      ∧ pyStrip (((pointsOf (makeBatch (validChunksOf twoChunks) [[0, 1], [2, 3]])).getD 0
          (0, [], ⟨[], []⟩)).2.2.page_content) ≠ []) :=
  ⟨by decide, C9_payload_shape_and_nonblank twoChunks [[0, 1], [2, 3]] 0 (by decide)⟩

/-- The chunker applied to one document, projected to its texts, is the
sliding-window list of the document text with window 1000 and step 800. -/
theorem split_documents_singleton (text : List Char) (md : Metadata) :
    (split_documents [⟨text, md⟩]).map (·.page_content) = slideWindow 1000 800 text := by
  have hcomp : ((fun (x : Chunk) => x.page_content) ∘ fun t => (⟨t, md⟩ : Chunk)) = id := rfl
  simp [split_documents, splitTexts, List.map_map, hcomp]

/-- The chunk lengths of a 2500-character document. -/
theorem lengths_2500 :
    ((split_documents [⟨List.replicate 2500 'a', ([] : Metadata)⟩]).map
        fun c => c.page_content.length) = [1000, 1000, 900] := by
  have h : ((split_documents [⟨List.replicate 2500 'a', ([] : Metadata)⟩]).map
      fun c => c.page_content.length)
      = ((split_documents [⟨List.replicate 2500 'a', ([] : Metadata)⟩]).map
          (·.page_content)).map List.length := by
    rw [List.map_map]
    rfl
  rw [h, split_documents_singleton]
  unfold slideWindow
  rw [slideWindowAux_map_length]
  simp only [List.length_replicate]
  decide

/-- C2 counterexample: a 2500-character document is split into 3 chunks of
lengths [1000, 1000, 900] — not into 4 chunks of lengths
[1000, 1000, 1000, 300] as the claim's example states (that example is also
impossible for any W=1000, O=200 windowing: 4 chunks overlapping by 200 over
2500 characters would have to total 3100 characters, not 3300). -/
theorem C2_counterexample_2500_chars :
    ((split_documents [⟨List.replicate 2500 'a', ([] : Metadata)⟩]).map
        fun c => c.page_content.length) = [1000, 1000, 900]
    ∧ ((split_documents [⟨List.replicate 2500 'a', ([] : Metadata)⟩]).map
        fun c => c.page_content.length) ≠ [1000, 1000, 1000, 300]
    ∧ (split_documents [⟨List.replicate 2500 'a', ([] : Metadata)⟩]).length = 3 := by
  refine ⟨lengths_2500, ?_, ?_⟩
  · rw [lengths_2500]
    decide
  · have h3 := congrArg List.length lengths_2500
    rw [List.length_map] at h3
    exact h3.trans rfl

/-- C2 amended: for a document chunked with windowSize W=1000 and overlap
O=200, every produced chunk except the last has length exactly 1000, the
overlapping region between consecutive chunks is exactly 200 characters (the
200-character tail of a chunk is the 200-character head of its successor),
and concatenating the chunks with the overlaps deduplicated reconstructs the
document text; a 2500-character document yields 3 chunks of lengths
[1000, 1000, 900]. -/
theorem C2_amended_chunk_window_laws (text : List Char) (md : Metadata) :
    (∀ i, i + 1 < ((split_documents [⟨text, md⟩]).map (·.page_content)).length →
      (((split_documents [⟨text, md⟩]).map (·.page_content)).getD i []).length = 1000)
    ∧ (∀ i, i + 1 < ((split_documents [⟨text, md⟩]).map (·.page_content)).length →
      (((split_documents [⟨text, md⟩]).map (·.page_content)).getD i []).drop 800
        = (((split_documents [⟨text, md⟩]).map (·.page_content)).getD (i + 1) []).take 200
      ∧ ((((split_documents [⟨text, md⟩]).map (·.page_content)).getD i []).drop 800).length
          = 200)
    ∧ dedupConcat 200 ((split_documents [⟨text, md⟩]).map (·.page_content)) = text
    ∧ ((split_documents [⟨List.replicate 2500 'a', ([] : Metadata)⟩]).map
        fun c => c.page_content.length) = [1000, 1000, 900] := by
  rw [split_documents_singleton text md]
  refine ⟨?_, ?_, ?_, lengths_2500⟩
  · intro i hi
    exact slideWindowAux_allButLast 1000 800 text.length text i hi
  · intro i hi
    exact slideWindowAux_overlap 1000 800 (by omega) (by omega) text.length text le_rfl i hi
  · exact dedupConcat_slideWindow 1000 200 (by omega) text

theorem C2_amended_witness :
    dedupConcat 200 ((split_documents [⟨['x', 'y'], ([] : Metadata)⟩]).map (·.page_content))
      = ['x', 'y']
    ∧ ((split_documents [⟨List.replicate 2500 'a', ([] : Metadata)⟩]).map
        fun c => c.page_content.length) = [1000, 1000, 900] :=
  ⟨(C2_amended_chunk_window_laws ['x', 'y'] []).2.2.1,
   (C2_amended_chunk_window_laws ['x', 'y'] []).2.2.2⟩

theorem C5_witness :
    (load_documents_from_directory "CV" none).docs = []
    ∧ (load_documents_from_directory "CV" none).logs = [missingDirWarning "CV"] :=
  C5_missing_directory_empty_and_warning "CV"

/-- C3: point ids are the zero-based monotonically increasing sequence
`0..n-1`, positional to chunk order, and re-running the embedding-and-store
stage on the same input against the state produced by a first run yields the
very same store state: the same ids with the same payloads are written,
overwriting the prior points in place rather than appending. -/
theorem C3_ids_range_and_idempotent_rerun
    (provider : List (List Char) → Except String (List Vec))
    (chunks : List Chunk) (st0 st1 : StoreState)
    (h : (generate_and_store_embeddings provider chunks st0).outcome = .ok st1) :
    (∀ (vc : List Chunk) (vs : List Vec), (makeBatch vc vs).ids = List.range vc.length)
    ∧ (generate_and_store_embeddings provider chunks st1).outcome = .ok st1 := by
  refine ⟨fun vc vs => rfl, ?_⟩
  by_cases hv : (validChunksOf chunks).isEmpty
  · rw [gen_of_validEmpty provider chunks st0 hv] at h
    simp only [Except.ok.injEq] at h
    subst h
    rw [gen_of_validEmpty provider chunks st0 hv]
  · have hv' : (validChunksOf chunks).isEmpty = false := by
      simpa using hv
    cases hp : provider ((validChunksOf chunks).map (·.page_content)) with
    | error e =>
      rw [gen_of_providerError provider chunks st0 e hv' hp] at h
      simp at h
    | ok vectors =>
      cases hh : vectors.head? with
      | none =>
        have hnil : vectors = [] := by
          cases vectors with
          | nil => rfl
          | cons a as => simp at hh
        subst hnil
        rw [gen_of_emptyVectors provider chunks st0 hv' hp] at h
        simp at h
      | some v0 =>
        rw [gen_success provider chunks st0 vectors v0 hv' hp hh] at h
        simp only [Except.ok.injEq] at h
        subst h
        rw [gen_success provider chunks _ vectors v0 hv' hp hh]
        simp only [Except.ok.injEq]
        have hsome : ({ ensureCollection v0.length st0 with
            points := upsertBatch (makeBatch (validChunksOf chunks) vectors)
              (ensureCollection v0.length st0).points } : StoreState).collection.isSome :=
          ensureCollection_isSome v0.length st0
        rw [ensureCollection_of_isSome _ _ hsome]
        have hidem : upsertBatch (makeBatch (validChunksOf chunks) vectors)
            (upsertBatch (makeBatch (validChunksOf chunks) vectors)
              (ensureCollection v0.length st0).points)
            = upsertBatch (makeBatch (validChunksOf chunks) vectors)
                (ensureCollection v0.length st0).points :=
          upsertBatch_idem _ _
        exact congrArg _ hidem

/-- The store state the first witness run produces. -/
def c3State : StoreState :=
  { collection := some ⟨2, Distance.COSINE⟩
  , points := upsertBatch (makeBatch (validChunksOf oneChunk) [[0, 1]]) fun _ => none }

theorem C3_witness :
    (generate_and_store_embeddings okProvider oneChunk emptyStore).outcome = .ok c3State
    ∧ ((makeBatch (validChunksOf oneChunk) [[0, 1]]).ids = List.range 1
      ∧ (generate_and_store_embeddings okProvider oneChunk c3State).outcome = .ok c3State) := by
  have h0 : (generate_and_store_embeddings okProvider oneChunk emptyStore).outcome
      = .ok c3State := rfl
  have h := C3_ids_range_and_idempotent_rerun okProvider oneChunk emptyStore c3State h0
  exact ⟨h0, h.1 (validChunksOf oneChunk) [[0, 1]], h.2⟩

end TuCV
